import Mathlib

/-!
Verification development for the command-line parser of vltrace
(src/src/cl_parser.c).  The parser is a loop around glibc's getopt_long
with optstring "+tXhdLRBrp:l:s:e:o:N:K:f::" and a fixed long-option
table; each recognized option mutates a `struct cl_options` or
terminates the process.  We embed the scanner (getopt_long specialised
to this optstring and table, in REQUIRE_ORDER mode because of the
leading '+'), the dispatcher (the switch statement of cl_parser), and
the resulting configuration object, and prove the spec's claims about
them.
-/

namespace VltraceCl

/-- Tokens of the argument vector, modelled as C strings: lists of characters. -/
abbrev Token := List Char

/-- Argument arity of an option, as in getopt's no_argument /
required_argument / optional_argument. -/
inductive Arity
| no_argument
| required_argument
| optional_argument
deriving DecidableEq

/-- One entry of the `struct option long_options[]` table of cl_parser.c:
long name, arity, and the short-option character returned by getopt_long
(the `val` field; all entries have `flag = 0`). -/
structure LongOpt where
  name : Token
  has_arg : Arity
  val : Char
deriving DecidableEq

/-- The long-option table of cl_parser.c (lines 77-95), verbatim. -/
def long_options : List LongOpt :=
  [⟨ "timestamp".toList, Arity.no_argument, 't'⟩,
   ⟨ "failed".toList, Arity.no_argument, 'X'⟩,
   ⟨ "help".toList, Arity.no_argument, 'h'⟩,
   ⟨ "debug".toList, Arity.no_argument, 'd'⟩,
   ⟨ "list".toList, Arity.no_argument, 'L'⟩,
   ⟨ "ll-list".toList, Arity.no_argument, 'R'⟩,
   ⟨ "builtin-list".toList, Arity.no_argument, 'B'⟩,
   ⟨ "no-progress".toList, Arity.no_argument, 'r'⟩,
   ⟨ "pid".toList, Arity.required_argument, 'p'⟩,
   ⟨ "format".toList, Arity.required_argument, 'l'⟩,
   ⟨ "string-args".toList, Arity.required_argument, 's'⟩,
   ⟨ "expr".toList, Arity.required_argument, 'e'⟩,
   ⟨ "output".toList, Arity.required_argument, 'o'⟩,
   ⟨ "ebpf-src-dir".toList, Arity.required_argument, 'N'⟩,
   ⟨ "hex-separator".toList, Arity.required_argument, 'K'⟩,
   ⟨ "full-follow-fork".toList, Arity.optional_argument, 'f'⟩]

/-- The optstring passed to getopt_long in cl_parser.c (line 97).
The leading '+' selects REQUIRE_ORDER: scanning stops at the first
non-option argument. -/
def optstring : Token := "+tXhdLRBrp:l:s:e:o:N:K:f::".toList

/-- The optstring with the leading ordering flag '+' stripped, as glibc
strips it before looking up option characters. -/
def optbody : Token := optstring.drop 1

/-- Look up a short-option character in an optstring body, returning its
arity from the number of following colons, as glibc's strchr-based lookup
does.  Returns none when the character is not an option character. -/
def findShort : Token → Char → Option Arity
| [], _ => none
| a :: rest, c =>
  if a = c then
    match rest with
    | ':' :: ':' :: _ => some Arity.optional_argument
    | ':' :: _ => some Arity.required_argument
    | _ => some Arity.no_argument
  else findShort rest c

/-- Boolean test that a token is an initial segment of another. -/
def tokLe : Token → Token → Bool
| [], _ => true
| _ :: _, [] => false
| a :: as, b :: bs => a == b && tokLe as bs

/-- Result of looking up a long-option name. -/
inductive LFind
| found (e : LongOpt)
| ambiguous
| notFound
deriving DecidableEq

/-- Long-option name resolution as glibc performs it: an exact name match
wins; otherwise a unique strict-prefix abbreviation is accepted; several
prefix matches are ambiguous; no match is unknown. -/
def findLong (name : Token) : LFind :=
  match long_options.filter (fun e => e.name == name) with
  | e :: _ => LFind.found e
  | [] =>
    match long_options.filter (fun e => tokLe name e.name) with
    | [] => LFind.notFound
    | [e] => LFind.found e
    | _ :: _ :: _ => LFind.ambiguous

/-- Split a long-option body at the first '=': returns the name and, when
an '=' is present, the text following it (glibc's optarg for `--name=val`). -/
def splitEq : Token → Token × Option Token
| [] => ([], none)
| '=' :: rest => ([], some rest)
| a :: rest =>
  let r := splitEq rest
  (a :: r.1, r.2)

/-- Diagnostics that glibc's getopt_long itself prints to stderr (opterr
is enabled and the optstring does not begin with ':'). -/
inductive GErr
| missingArg
| unknownOpt
| ambiguousOpt
| noArgAllowed
deriving DecidableEq

/-- One parse event handed by the scanner (getopt_long) to the switch of
cl_parser: either a recognized option character with its optarg, or a '?'
return together with the diagnostic getopt printed. -/
inductive Event
| recognized (c : Char) (val : Option Token)
| unknown (g : GErr)
deriving DecidableEq

/-- Scan the remainder of one short-option cluster (the characters of an
argv element after its leading '-').  `next` is the following argv element,
consumed as the argument of a required-argument option that ends the
cluster.  Returns the events produced and whether `next` was consumed.
Mirrors glibc: an unknown character or a no-argument option continues the
cluster; a required-argument option takes the rest of the element if any,
else the next element, else yields a missing-argument '?'; an
optional-argument option takes the rest of the element or nothing. -/
def scanShort : List Char → Option Token → List Event × Bool
| [], _ => ([], false)
| c :: cs, next =>
  if c = ':' then
    let r := scanShort cs next
    (Event.unknown GErr.unknownOpt :: r.1, r.2)
  else
    match findShort optbody c with
    | none =>
      let r := scanShort cs next
      (Event.unknown GErr.unknownOpt :: r.1, r.2)
    | some Arity.no_argument =>
      let r := scanShort cs next
      (Event.recognized c none :: r.1, r.2)
    | some Arity.required_argument =>
      match cs, next with
      | [], some t => ([Event.recognized c (some t)], true)
      | [], none => ([Event.unknown GErr.missingArg], false)
      | c2 :: cs2, _ => ([Event.recognized c (some (c2 :: cs2))], false)
    | some Arity.optional_argument =>
      match cs with
      | [] => ([Event.recognized c none], false)
      | c2 :: cs2 => ([Event.recognized c (some (c2 :: cs2))], false)

/-- Scan one long option (the argv element after its leading "--").
`next` is the following argv element, consumed as the argument of a
required-argument long option written without '='.  Returns the events
produced and whether `next` was consumed. -/
def scanLong (body : Token) (next : Option Token) : List Event × Bool :=
  let s := splitEq body
  match findLong s.1 with
  | LFind.found e =>
    match e.has_arg, s.2 with
    | Arity.no_argument, some _ => ([Event.unknown GErr.noArgAllowed], false)
    | Arity.no_argument, none => ([Event.recognized e.val none], false)
    | Arity.required_argument, some v => ([Event.recognized e.val (some v)], false)
    | Arity.required_argument, none =>
      match next with
      | some t => ([Event.recognized e.val (some t)], true)
      | none => ([Event.unknown GErr.missingArg], false)
    | Arity.optional_argument, vo => ([Event.recognized e.val vo], false)
  | LFind.ambiguous => ([Event.unknown GErr.ambiguousOpt], false)
  | LFind.notFound => ([Event.unknown GErr.unknownOpt], false)

/-- Classification of an argv element, as getopt classifies it: the exact
element "--", a long option "--body", a short-option cluster "-c...", or a
non-option element ("-" alone, the empty element, or anything not starting
with '-'). -/
inductive TokKind
| dashdash
| long (body : Token)
| short (cs : List Char)
| nonopt
deriving DecidableEq

/-- Classify one argv element. -/
def tokClass : Token → TokKind
| '-' :: '-' :: [] => TokKind.dashdash
| '-' :: '-' :: b :: body => TokKind.long (b :: body)
| '-' :: c :: cs => TokKind.short (c :: cs)
| _ => TokKind.nonopt

/-- Fuel-indexed scanner loop over the argv elements past the program
name.  `idx` is getopt's optind.  In REQUIRE_ORDER mode (leading '+'),
"--" is consumed and stops, any non-option element stops without being
consumed, and each option element yields its events; required-argument
options written as a separate word consume the following element.  The
fuel is always instantiated with the length of the list (see `scan`), so
the zero-fuel branch is unreachable. -/
def scanF : Nat → Nat → List Token → List Event × Nat
| 0, idx, _ => ([], idx)
| _ + 1, idx, [] => ([], idx)
| fuel + 1, idx, tok :: rest =>
  match tokClass tok with
  | TokKind.dashdash => ([], idx + 1)
  | TokKind.long body =>
    let r := scanLong body rest.head?
    if r.2 then
      let s := scanF fuel (idx + 2) rest.tail
      (r.1 ++ s.1, s.2)
    else
      let s := scanF fuel (idx + 1) rest
      (r.1 ++ s.1, s.2)
  | TokKind.short cs =>
    let r := scanShort cs rest.head?
    if r.2 then
      let s := scanF fuel (idx + 2) rest.tail
      (r.1 ++ s.1, s.2)
    else
      let s := scanF fuel (idx + 1) rest
      (r.1 ++ s.1, s.2)
  | TokKind.nonopt => ([], idx)

/-- The scanner: the sequence of getopt_long events for an argv suffix,
together with the final value of optind, starting from optind = `idx`. -/
def scan (idx : Nat) (l : List Token) : List Event × Nat :=
  scanF l.length idx l

/-- C atoi digit accumulation: consume leading decimal digits, ignore the
rest of the string. -/
def digitsVal : List Char → Int → Int
| [], acc => acc
| c :: rest, acc =>
  if '0' ≤ c ∧ c ≤ '9' then digitsVal rest (acc * 10 + ((c.toNat : Int) - 48))
  else acc

/-- C isspace in the C locale. -/
def isSpaceC (c : Char) : Bool :=
  c = ' ' || c = '\t' || c = '\n' || c = Char.ofNat 11 || c = Char.ofNat 12 || c = '\r'

/-- C atoi: skip leading whitespace, an optional sign, then read leading
decimal digits; a string with no leading digits yields 0. -/
def atoi (s : Token) : Int :=
  match s.dropWhile isSpaceC with
  | '-' :: rest => - digitsVal rest 0
  | '+' :: rest => digitsVal rest 0
  | s1 => digitsVal s1 0

/-- ASCII lower-casing as C tolower in the C locale. -/
def tolowerC (c : Char) : Char :=
  if 'A' ≤ c ∧ c ≤ 'Z' then Char.ofNat (c.toNat + 32) else c

/-- Case-insensitive string equality, as strcasecmp(a,b) == 0. -/
def caseeq (a b : Token) : Bool :=
  a.map tolowerC == b.map tolowerC

/-- Follow-fork mode.  Modelled from the spec: the enum has a disabled
default and E_FF_FULL; the header defining it is not under src/. -/
inductive FFMode
| disabled
| full
deriving DecidableEq

/-- The configuration object `struct cl_options` mutated by cl_parser.
Field names follow the source; the two external lookups performed while
parsing (choose_fnr_mode for -s and out_fmt_str2enum for -l) are
deterministic functions of their string argument, so their results are
modelled by recording that argument.  The field defaults model the spec's
"created empty" initial object (the header with the struct is not under
src/); cl_parser itself is proved against arbitrary initial states. -/
structure cl_options where
  do_not_print_progress : Nat := 0
  timestamp : Bool := false
  failed : Bool := false
  debug : Bool := false
  pid : Int := 0
  out_fn : Option Token := none
  out_lf_fld_sep_ch : Char := Char.ofNat 0
  ebpf_src_dir : Option Token := none
  expr : Option Token := none
  out_fmt_str : Option Token := none
  fnr_mode : Option Token := none
  ff_mode : FFMode := FFMode.disabled
  ff_separate_logs : Bool := false
  command : Bool := false
deriving DecidableEq

/-- The full parser-visible state: the configuration object plus the
global Out_lf_fmt, which cl_parser assigns from
out_fmt_str2enum(out_fmt_str); the external lookup is modelled by
recording the argument passed to it. -/
structure ParseState where
  clo : cl_options := {}
  out_lf_fmt_arg : Option Token := none
deriving DecidableEq

/-- The default state: configuration created empty. -/
def clDefault : ParseState := {}

/-- Observable diagnostic and informational outputs of one parser run,
identified by the printing site in the source. -/
inductive Msg
| getoptMsg (g : GErr)
| errMissingArgMsg
| usageErr
| usageOut
| errWrongPid (raw : Token) (v : Int)
| infoExprList
| traceList
| infoFormatList
| scList
| scListAll
| syscallsTable
| errUnknownOpt (c : Char)
deriving DecidableEq

/-- Result of dispatching one event: continue the loop with an updated
state, or terminate the process (exit) with a status and the messages
printed on that path. -/
inductive StepOut
| cont (st : ParseState)
| halt (status : Int) (st : ParseState) (msgs : List Msg)
deriving DecidableEq

/-- The switch statement of cl_parser (lines 103-224), one case per
getopt return value, in source order.  check_optarg (lines 56-64) is
inlined at each use: a null optarg prints the missing-argument error and
the usage text and exits with failure.  `resB` is the value returned by
the external print_syscalls_table for the 'B' case. -/
def dispatch (resB : Int) (st : ParseState) (ev : Event) : StepOut :=
  match ev with
  | Event.unknown g => StepOut.halt 1 st [Msg.getoptMsg g, Msg.usageErr]
  | Event.recognized c v =>
    if c = 'r' then
      StepOut.cont { st with clo := { st.clo with do_not_print_progress := 1 } }
    else if c = 't' then
      StepOut.cont { st with clo := { st.clo with timestamp := true } }
    else if c = 'X' then
      StepOut.cont { st with clo := { st.clo with failed := true } }
    else if c = 'h' then
      StepOut.halt 0 st [Msg.usageOut]
    else if c = 'd' then
      StepOut.cont { st with clo := { st.clo with debug := true } }
    else if c = 'p' then
      match v with
      | none => StepOut.halt 1 st [Msg.errMissingArgMsg, Msg.usageErr]
      | some a =>
        let st2 := { st with clo := { st.clo with pid := atoi a } }
        if atoi a < 1 then StepOut.halt 1 st2 [Msg.errWrongPid a (atoi a)]
        else StepOut.cont st2
    else if c = 'o' then
      match v with
      | none => StepOut.halt 1 st [Msg.errMissingArgMsg, Msg.usageErr]
      | some a => StepOut.cont { st with clo := { st.clo with out_fn := some a } }
    else if c = 'K' then
      match v with
      | none => StepOut.halt 1 st [Msg.errMissingArgMsg, Msg.usageErr]
      | some a =>
        StepOut.cont { st with clo := { st.clo with out_lf_fld_sep_ch := a.headD (Char.ofNat 0) } }
    else if c = 'N' then
      match v with
      | none => StepOut.halt 1 st [Msg.errMissingArgMsg, Msg.usageErr]
      | some a => StepOut.cont { st with clo := { st.clo with ebpf_src_dir := some a } }
    else if c = 'e' then
      match v with
      | none => StepOut.halt 1 st [Msg.errMissingArgMsg, Msg.usageErr]
      | some a =>
        if caseeq a ( "list".toList) || caseeq a ( "help".toList) then
          StepOut.halt 0 st [Msg.infoExprList]
        else if caseeq a ( "trace=help".toList) || caseeq a ( "trace=list".toList) then
          StepOut.halt 0 st [Msg.traceList]
        else StepOut.cont { st with clo := { st.clo with expr := some a } }
    else if c = 'l' then
      match v with
      | none => StepOut.halt 1 st [Msg.errMissingArgMsg, Msg.usageErr]
      | some a =>
        if caseeq a ( "list".toList) || caseeq a ( "help".toList) then
          StepOut.halt 0 st [Msg.infoFormatList]
        else
          StepOut.cont { st with clo := { st.clo with out_fmt_str := some a },
                                 out_lf_fmt_arg := some a }
    else if c = 's' then
      match v with
      | none => StepOut.halt 1 st [Msg.errMissingArgMsg, Msg.usageErr]
      | some a => StepOut.cont { st with clo := { st.clo with fnr_mode := some a } }
    else if c = 'L' then
      StepOut.halt 0 st [Msg.scList]
    else if c = 'R' then
      StepOut.halt 0 st [Msg.scListAll]
    else if c = 'B' then
      StepOut.halt (if resB = 1 then 0 else if resB = 0 then 1 else resB) st [Msg.syscallsTable]
    else if c = 'f' then
      let st2 := { st with clo := { st.clo with ff_mode := FFMode.full } }
      match v with
      | some _ => StepOut.cont { st2 with clo := { st2.clo with ff_separate_logs := true } }
      | none => StepOut.cont st2
    else if c = ':' then
      StepOut.halt 1 st [Msg.errMissingArgMsg, Msg.usageErr]
    else
      StepOut.halt 1 st [Msg.errUnknownOpt c, Msg.usageErr]

/-- Outcome of one cl_parser invocation: a normal return with the final
state and the returned optind, or a process exit with a status and the
messages printed on the exiting path. -/
inductive Outcome
| ret (st : ParseState) (optind : Nat)
| exited (status : Int) (st : ParseState) (msgs : List Msg)
deriving DecidableEq

/-- Run the dispatcher over the scanner's events.  On exhaustion,
cl_parser's epilogue (lines 227-230): if optind < argc, set
clo->command = true; return optind. -/
def runEvents (resB : Int) (argc : Nat) : ParseState → Nat → List Event → Outcome
| st, optind, [] =>
  if optind < argc then
    Outcome.ret { st with clo := { st.clo with command := true } } optind
  else Outcome.ret st optind
| st, optind, ev :: evs =>
  match dispatch resB st ev with
  | StepOut.cont st2 => runEvents resB argc st2 optind evs
  | StepOut.halt s st2 ms => Outcome.exited s st2 ms

/-- The function cl_parser (lines 69-231): scan the argument vector
(getopt starts at optind = 1, past the program name), dispatch every
event, then apply the epilogue.  `argv` is the full vector including the
program name; `argc` is its length. -/
def clParser (resB : Int) (st : ParseState) (argv : List Token) : Outcome :=
  let s := scan 1 (argv.drop 1)
  runEvents resB argv.length st s.2 s.1

/-- Messages printed by an outcome (empty for a normal return: every
cont branch of the dispatcher is silent). -/
def msgsOf : Outcome → List Msg
| Outcome.ret _ _ => []
| Outcome.exited _ _ ms => ms

/-- Final parser state of an outcome. -/
def stOf : Outcome → ParseState
| Outcome.ret st _ => st
| Outcome.exited _ st _ => st

/-! ### Claim theorems -/

/-- Claim C1: for every invocation of the pid option with a value v, the
parser parses v with atoi; if the result is less than 1 (which includes
every string without leading digits, parsed as 0) it reports an
invalid-value error and exits with failure status, and otherwise it
stores the result in the pid field and returns normally.  In particular
"--pid 0", "--pid -5" and "--pid abc" are rejected as invalid-value
errors and "--pid 42" sets pid = 42. -/
theorem c1_pid_option (resB : Int) (st : ParseState) (a0 v : Token) :
    (clParser resB st [a0, "-p".toList, v] =
      if atoi v < 1 then
        Outcome.exited 1 { st with clo := { st.clo with pid := atoi v } }
          [Msg.errWrongPid v (atoi v)]
      else
        Outcome.ret { st with clo := { st.clo with pid := atoi v } } 3)
  ∧ (clParser resB st [a0, "--pid".toList, v] =
      if atoi v < 1 then
        Outcome.exited 1 { st with clo := { st.clo with pid := atoi v } }
          [Msg.errWrongPid v (atoi v)]
      else
        Outcome.ret { st with clo := { st.clo with pid := atoi v } } 3)
  ∧ clParser resB st [a0, "--pid".toList, "0".toList] =
      Outcome.exited 1 { st with clo := { st.clo with pid := 0 } }
        [Msg.errWrongPid ( "0".toList) 0]
  ∧ clParser resB st [a0, "--pid".toList, "-5".toList] =
      Outcome.exited 1 { st with clo := { st.clo with pid := -5 } }
        [Msg.errWrongPid ( "-5".toList) (-5)]
  ∧ clParser resB st [a0, "--pid".toList, "abc".toList] =
      Outcome.exited 1 { st with clo := { st.clo with pid := 0 } }
        [Msg.errWrongPid ( "abc".toList) 0]
  ∧ clParser resB st [a0, "--pid".toList, "42".toList] =
      Outcome.ret { st with clo := { st.clo with pid := 42 } } 3 := by
  refine ⟨?_, ?_, rfl, rfl, rfl, rfl⟩
  · have h1 : clParser resB st [a0, "-p".toList, v]
        = runEvents resB 3 st 3 [Event.recognized 'p' (some v)] := rfl
    rw [h1]
    by_cases h : atoi v < 1 <;> simp +decide [runEvents, dispatch, h]
  · have h1 : clParser resB st [a0, "--pid".toList, v]
        = runEvents resB 3 st 3 [Event.recognized 'p' (some v)] := rfl
    rw [h1]
    by_cases h : atoi v < 1 <;> simp +decide [runEvents, dispatch, h]

/-- Claim C3: for every value v given to the expr option, a value that
case-insensitively equals "list" or "help" prints the expression help and
exits with success without storing v; a value that case-insensitively
equals "trace=help" or "trace=list" prints the syscall-set listing and
exits with success without storing v; any other value is stored unchanged
in the expr field.  In particular "--expr trace=list" and
"--expr trace=HELP" take the listing exit and "--expr openat" stores the
literal value. -/
theorem c3_expr_option (resB : Int) (st : ParseState) (a0 v : Token) :
    (clParser resB st [a0, "-e".toList, v] =
      if caseeq v ( "list".toList) || caseeq v ( "help".toList) then
        Outcome.exited 0 st [Msg.infoExprList]
      else if caseeq v ( "trace=help".toList) || caseeq v ( "trace=list".toList) then
        Outcome.exited 0 st [Msg.traceList]
      else
        Outcome.ret { st with clo := { st.clo with expr := some v } } 3)
  ∧ (clParser resB st [a0, "--expr".toList, v] =
      if caseeq v ( "list".toList) || caseeq v ( "help".toList) then
        Outcome.exited 0 st [Msg.infoExprList]
      else if caseeq v ( "trace=help".toList) || caseeq v ( "trace=list".toList) then
        Outcome.exited 0 st [Msg.traceList]
      else
        Outcome.ret { st with clo := { st.clo with expr := some v } } 3)
  ∧ clParser resB st [a0, "--expr".toList, "trace=list".toList] =
      Outcome.exited 0 st [Msg.traceList]
  ∧ clParser resB st [a0, "--expr".toList, "trace=HELP".toList] =
      Outcome.exited 0 st [Msg.traceList]
  ∧ clParser resB st [a0, "--expr".toList, "openat".toList] =
      Outcome.ret { st with clo := { st.clo with expr := some ( "openat".toList) } } 3 := by
  refine ⟨?_, ?_, rfl, rfl, rfl⟩
  · have h1 : clParser resB st [a0, "-e".toList, v]
        = runEvents resB 3 st 3 [Event.recognized 'e' (some v)] := rfl
    rw [h1]
    cases hb1 : caseeq v ( "list".toList) <;>
      cases hb2 : caseeq v ( "help".toList) <;>
        cases hb3 : caseeq v ( "trace=help".toList) <;>
          cases hb4 : caseeq v ( "trace=list".toList) <;>
            simp_all +decide [runEvents, dispatch]
  · have h1 : clParser resB st [a0, "--expr".toList, v]
        = runEvents resB 3 st 3 [Event.recognized 'e' (some v)] := rfl
    rw [h1]
    cases hb1 : caseeq v ( "list".toList) <;>
      cases hb2 : caseeq v ( "help".toList) <;>
        cases hb3 : caseeq v ( "trace=help".toList) <;>
          cases hb4 : caseeq v ( "trace=list".toList) <;>
            simp_all +decide [runEvents, dispatch]

/-- Claim C4: for every value v given to the format option that
case-insensitively equals "help" or "list" (including "list", "LIST" and
"help"), the parser takes the informational exit with success status and
neither the out_fmt_str field nor the global format resolution is
mutated; any other value is stored in out_fmt_str and passed to the
external out_fmt_str2enum lookup. -/
theorem c4_format_option (resB : Int) (st : ParseState) (a0 v : Token) :
    (clParser resB st [a0, "-l".toList, v] =
      if caseeq v ( "list".toList) || caseeq v ( "help".toList) then
        Outcome.exited 0 st [Msg.infoFormatList]
      else
        Outcome.ret { st with clo := { st.clo with out_fmt_str := some v },
                              out_lf_fmt_arg := some v } 3)
  ∧ (clParser resB st [a0, "--format".toList, v] =
      if caseeq v ( "list".toList) || caseeq v ( "help".toList) then
        Outcome.exited 0 st [Msg.infoFormatList]
      else
        Outcome.ret { st with clo := { st.clo with out_fmt_str := some v },
                              out_lf_fmt_arg := some v } 3)
  ∧ clParser resB st [a0, "--format".toList, "list".toList] =
      Outcome.exited 0 st [Msg.infoFormatList]
  ∧ clParser resB st [a0, "--format".toList, "LIST".toList] =
      Outcome.exited 0 st [Msg.infoFormatList]
  ∧ clParser resB st [a0, "--format".toList, "help".toList] =
      Outcome.exited 0 st [Msg.infoFormatList] := by
  refine ⟨?_, ?_, rfl, rfl, rfl⟩
  · have h1 : clParser resB st [a0, "-l".toList, v]
        = runEvents resB 3 st 3 [Event.recognized 'l' (some v)] := rfl
    rw [h1]
    cases hb1 : caseeq v ( "list".toList) <;>
      cases hb2 : caseeq v ( "help".toList) <;>
        simp_all +decide [runEvents, dispatch]
  · have h1 : clParser resB st [a0, "--format".toList, v]
        = runEvents resB 3 st 3 [Event.recognized 'l' (some v)] := rfl
    rw [h1]
    cases hb1 : caseeq v ( "list".toList) <;>
      cases hb2 : caseeq v ( "help".toList) <;>
        simp_all +decide [runEvents, dispatch]

/-- Claim C2 counterexample: parsing the two-token vector "-f anything"
does NOT set separate-logs.  getopt only attaches a value to an
optional-argument option when the value is written inside the same argv
element, so "anything" is not consumed as the option's value: it stops
the scan and becomes the trailing command, and ff_separate_logs stays
false where the claim asserts it becomes true. -/
theorem c2_counterexample :
    (stOf (clParser 0 clDefault
      [ "vltrace".toList, "-f".toList, "anything".toList])).clo.ff_separate_logs = false
  ∧ clParser 0 clDefault [ "vltrace".toList, "-f".toList, "anything".toList] =
      Outcome.ret { clo := { ff_mode := FFMode.full, command := true } } 2 := by
  decide

/-- Claim C2, amended: the single option "-f" with no value sets
follow-fork mode = full and leaves separate-logs untouched (hence false
from the default state); the follow-fork option with a supplied value -
which getopt only accepts attached, as "-fvalue" or
"--full-follow-fork=value" - sets follow-fork mode = full and
additionally sets separate-logs = true; "-f anything" as two separate
tokens sets follow-fork mode = full, leaves separate-logs false, and
"anything" becomes the start of the trailing command. -/
theorem c2_follow_fork (resB : Int) (st : ParseState) (a0 : Token) (c0 : Char) (v : Token) :
    (clParser resB st [a0, "-f".toList] =
      Outcome.ret { st with clo := { st.clo with ff_mode := FFMode.full } } 2)
  ∧ (clParser resB st [a0, '-' :: 'f' :: c0 :: v] =
      Outcome.ret { st with clo := { st.clo with ff_mode := FFMode.full,
                                                 ff_separate_logs := true } } 2)
  ∧ (clParser resB st [a0, "--full-follow-fork=".toList ++ v] =
      Outcome.ret { st with clo := { st.clo with ff_mode := FFMode.full,
                                                 ff_separate_logs := true } } 2)
  ∧ (clParser resB st [a0, "-f".toList, "anything".toList] =
      Outcome.ret { st with clo := { st.clo with ff_mode := FFMode.full,
                                                 command := true } } 2)
  ∧ (stOf (clParser resB clDefault [a0, "-f".toList])).clo.ff_separate_logs = false
  ∧ (stOf (clParser resB clDefault [a0, "-f".toList])).clo.ff_mode = FFMode.full := by
  exact ⟨rfl, rfl, rfl, rfl, rfl, rfl⟩

/-- The argument vectors consisting of a single required-argument option
with no following value, in short and long form. -/
def missingArgVecs : List Token :=
  [ "-p".toList, "-l".toList, "-s".toList, "-e".toList, "-o".toList, "-N".toList,
    "-K".toList, "--pid".toList, "--format".toList, "--string-args".toList,
    "--expr".toList, "--output".toList, "--ebpf-src-dir".toList, "--hex-separator".toList]

/-- Claim C5: an invocation in which a required-argument option appears
with no following value makes getopt report the missing argument (the
optstring does not begin with ':'), upon which the parser prints the
usage text to stderr and exits with failure status; the configuration is
not mutated at all (in particular target-pid for "-p"), so a missing
value is never replaced by a silent default. -/
theorem c5_missing_argument (resB : Int) (st : ParseState) (a0 tok : Token)
    (h : tok ∈ missingArgVecs) :
    clParser resB st [a0, tok] =
      Outcome.exited 1 st [Msg.getoptMsg GErr.missingArg, Msg.usageErr] := by
  simp only [missingArgVecs, List.mem_cons, List.not_mem_nil, or_false] at h
  rcases h with rfl | rfl | rfl | rfl | rfl | rfl | rfl | rfl | rfl | rfl | rfl | rfl | rfl | rfl <;>
    rfl

/-- Witness for C5 at the vector ending with "-p". -/
theorem c5_missing_argument_witness :
    "-p".toList ∈ missingArgVecs
  ∧ clParser 0 clDefault [ "vltrace".toList, "-p".toList] =
      Outcome.exited 1 clDefault [Msg.getoptMsg GErr.missingArg, Msg.usageErr] :=
  ⟨by decide, c5_missing_argument 0 clDefault ( "vltrace".toList) ( "-p".toList) (by decide)⟩

/-- Boolean test that an argv element is not option-like: it is empty,
"-" alone, or does not begin with '-'. -/
def nonOptionLike (t : Token) : Bool :=
  match tokClass t with
  | TokKind.nonopt => true
  | _ => false

/-- Claim C6: parsing "-t -p 100 -- ls -l" sets timestamp = true,
pid = 100 and command = true, and returns index 5, which points at "ls"
in the argument vector; and in general the scanner stops permanently at
the first non-option-like token, yielding no further events, so tokens
after the traced command are never interpreted as the tool's options. -/
theorem c6_stop_at_command (resB : Int) (st : ParseState) (a0 : Token) :
    (clParser resB st
        [a0, "-t".toList, "-p".toList, "100".toList, "--".toList, "ls".toList, "-l".toList] =
      Outcome.ret { st with clo := { st.clo with timestamp := true, pid := 100,
                                                 command := true } } 5)
  ∧ [a0, "-t".toList, "-p".toList, "100".toList, "--".toList, "ls".toList,
      "-l".toList].get? 5 = some ( "ls".toList)
  ∧ (∀ (idx : Nat) (tok : Token) (rest : List Token),
      nonOptionLike tok = true → scan idx (tok :: rest) = ([], idx)) := by
  refine ⟨rfl, rfl, ?_⟩
  intro idx tok rest h
  unfold nonOptionLike at h
  rcases htc : tokClass tok with _ | body | cs | _ <;> rw [htc] at h
  · simp at h
  · simp at h
  · simp at h
  · unfold scan
    simp only [List.length_cons, scanF, htc]

/-- Witness for C6's scanner-stop hypothesis at the token "ls". -/
theorem c6_stop_at_command_witness :
    nonOptionLike ( "ls".toList) = true
  ∧ scan 5 [ "ls".toList, "-l".toList] = ([], 5) :=
  ⟨by decide,
   (c6_stop_at_command 0 clDefault ( "vltrace".toList)).2.2 5
     ( "ls".toList) [ "-l".toList] (by decide)⟩

/-- Claim C8: for the builtin-syscall-table listing, the parser calls
the external printing routine and maps its return value r to the process
exit status: r = 1 exits with success (0), r = 0 exits with failure (1),
and any other r is passed through verbatim as the exit status. -/
theorem c8_builtin_table (resB : Int) (st : ParseState) (a0 : Token) :
    (clParser resB st [a0, "-B".toList] =
      Outcome.exited (if resB = 1 then 0 else if resB = 0 then 1 else resB) st
        [Msg.syscallsTable])
  ∧ (clParser resB st [a0, "--builtin-list".toList] =
      Outcome.exited (if resB = 1 then 0 else if resB = 0 then 1 else resB) st
        [Msg.syscallsTable])
  ∧ clParser 1 st [a0, "-B".toList] = Outcome.exited 0 st [Msg.syscallsTable]
  ∧ clParser 0 st [a0, "-B".toList] = Outcome.exited 1 st [Msg.syscallsTable]
  ∧ clParser 7 st [a0, "-B".toList] = Outcome.exited 7 st [Msg.syscallsTable] := by
  exact ⟨rfl, rfl, rfl, rfl, rfl⟩

/-- No dispatch case that continues the loop modifies the command flag:
it is written only by the epilogue of cl_parser. -/
theorem dispatch_cont_command (resB : Int) (st : ParseState) (ev : Event)
    (st2 : ParseState) (h : dispatch resB st ev = StepOut.cont st2) :
    st2.clo.command = st.clo.command := by
  rcases ev with ⟨c, v⟩ | g
  · by_cases h1 : c = 'r'
    case pos => subst h1; cases h; rfl
    by_cases h2 : c = 't'
    case pos => subst h2; cases h; rfl
    by_cases h3 : c = 'X'
    case pos => subst h3; cases h; rfl
    by_cases h4 : c = 'h'
    case pos => subst h4; exact StepOut.noConfusion h
    by_cases h5 : c = 'd'
    case pos => subst h5; cases h; rfl
    by_cases h6 : c = 'p'
    case pos =>
      subst h6
      rcases v with _ | a
      · exact StepOut.noConfusion h
      · have hred : dispatch resB st (Event.recognized 'p' (some a)) =
            (if atoi a < 1 then
              StepOut.halt 1 { st with clo := { st.clo with pid := atoi a } }
                [Msg.errWrongPid a (atoi a)]
            else StepOut.cont { st with clo := { st.clo with pid := atoi a } }) := rfl
        rw [hred] at h
        by_cases hp : atoi a < 1
        · rw [if_pos hp] at h
          exact StepOut.noConfusion h
        · rw [if_neg hp] at h
          cases h
          rfl
    by_cases h7 : c = 'o'
    case pos =>
      subst h7
      rcases v with _ | a
      · exact StepOut.noConfusion h
      · cases h
        rfl
    by_cases h8 : c = 'K'
    case pos =>
      subst h8
      rcases v with _ | a
      · exact StepOut.noConfusion h
      · cases h
        rfl
    by_cases h9 : c = 'N'
    case pos =>
      subst h9
      rcases v with _ | a
      · exact StepOut.noConfusion h
      · cases h
        rfl
    by_cases h10 : c = 'e'
    case pos =>
      subst h10
      rcases v with _ | a
      · exact StepOut.noConfusion h
      · have hred : dispatch resB st (Event.recognized 'e' (some a)) =
            (if caseeq a ( "list".toList) || caseeq a ( "help".toList) then
              StepOut.halt 0 st [Msg.infoExprList]
            else if caseeq a ( "trace=help".toList) || caseeq a ( "trace=list".toList) then
              StepOut.halt 0 st [Msg.traceList]
            else StepOut.cont { st with clo := { st.clo with expr := some a } }) := rfl
        rw [hred] at h
        by_cases hq : (caseeq a ( "list".toList) || caseeq a ( "help".toList)) = true
        · rw [if_pos hq] at h
          exact StepOut.noConfusion h
        · rw [if_neg hq] at h
          by_cases hq2 : (caseeq a ( "trace=help".toList) || caseeq a ( "trace=list".toList)) = true
          · rw [if_pos hq2] at h
            exact StepOut.noConfusion h
          · rw [if_neg hq2] at h
            cases h
            rfl
    by_cases h11 : c = 'l'
    case pos =>
      subst h11
      rcases v with _ | a
      · exact StepOut.noConfusion h
      · have hred : dispatch resB st (Event.recognized 'l' (some a)) =
            (if caseeq a ( "list".toList) || caseeq a ( "help".toList) then
              StepOut.halt 0 st [Msg.infoFormatList]
            else StepOut.cont { st with clo := { st.clo with out_fmt_str := some a },
                                        out_lf_fmt_arg := some a }) := rfl
        rw [hred] at h
        by_cases hq : (caseeq a ( "list".toList) || caseeq a ( "help".toList)) = true
        · rw [if_pos hq] at h
          exact StepOut.noConfusion h
        · rw [if_neg hq] at h
          cases h
          rfl
    by_cases h12 : c = 's'
    case pos =>
      subst h12
      rcases v with _ | a
      · exact StepOut.noConfusion h
      · cases h
        rfl
    by_cases h13 : c = 'L'
    case pos => subst h13; exact StepOut.noConfusion h
    by_cases h14 : c = 'R'
    case pos => subst h14; exact StepOut.noConfusion h
    by_cases h15 : c = 'B'
    case pos => subst h15; exact StepOut.noConfusion h
    by_cases h16 : c = 'f'
    case pos =>
      subst h16
      rcases v with _ | a
      · cases h
        rfl
      · cases h
        rfl
    by_cases h17 : c = ':'
    case pos => subst h17; exact StepOut.noConfusion h
    simp only [dispatch] at h
    rw [if_neg h1, if_neg h2, if_neg h3, if_neg h4, if_neg h5, if_neg h6, if_neg h7,
        if_neg h8, if_neg h9, if_neg h10, if_neg h11, if_neg h12, if_neg h13, if_neg h14,
        if_neg h15, if_neg h16, if_neg h17] at h
    exact StepOut.noConfusion h
  · simp [dispatch] at h

/-- A normal return of the event loop returns the optind it was given,
and its command flag is the initial one, forced to true exactly when
optind < argc. -/
theorem runEvents_ret (resB : Int) (argc : Nat) :
    ∀ (evs : List Event) (st : ParseState) (optind : Nat) (st2 : ParseState) (i : Nat),
    runEvents resB argc st optind evs = Outcome.ret st2 i →
    i = optind ∧ st2.clo.command = (st.clo.command || decide (optind < argc)) := by
  intro evs
  induction evs with
  | nil =>
    intro st optind st2 i h
    unfold runEvents at h
    by_cases hc : optind < argc
    · rw [if_pos hc] at h
      cases h
      simp [hc]
    · rw [if_neg hc] at h
      cases h
      simp [hc]
  | cons ev evs ih =>
    intro st optind st2 i h
    unfold runEvents at h
    rcases hd : dispatch resB st ev with st3 | ⟨s, st3, ms⟩
    · rw [hd] at h
      obtain ⟨h1, h2⟩ := ih st3 optind st2 i h
      exact ⟨h1, by rw [h2, dispatch_cont_command resB st ev st3 hd]⟩
    · rw [hd] at h
      exact (Outcome.noConfusion h)

/-- Claim C7: when cl_parser returns normally from an initial state whose
command flag is clear, the resulting command flag is true exactly when
unconsumed argv tokens remain (the returned index is below argc), and the
returned index is the scanner's final optind, the start of the trailing
command. -/
theorem c7_trailing_command_flag (resB : Int) (st : ParseState) (argv : List Token)
    (st2 : ParseState) (i : Nat) (h0 : st.clo.command = false)
    (h : clParser resB st argv = Outcome.ret st2 i) :
    (st2.clo.command = true ↔ i < argv.length) ∧ i = (scan 1 (argv.drop 1)).2 := by
  simp only [clParser] at h
  obtain ⟨h1, h2⟩ := runEvents_ret resB argv.length _ st _ st2 i h
  refine ⟨?_, h1⟩
  rw [h2, h0, h1]
  simp

/-- Witness for C7 on the one-token vector (program name only): the
parser returns index 1 with the command flag still clear. -/
theorem c7_trailing_command_flag_witness :
    (clDefault.clo.command = true ↔ 1 < [( "vltrace".toList)].length)
  ∧ 1 = (scan 1 ([( "vltrace".toList)].drop 1)).2 :=
  c7_trailing_command_flag 0 clDefault [ "vltrace".toList] clDefault 1 (by decide) (by decide)

/-- Claim C9: for every entry of the option table, invoking the option by
its short form and by its long form with equivalent inputs produces the
same outcome (configuration state, returned index, exit status and
messages): bare invocations agree for every arity, invocations with a
following separate token agree for every arity, and invocations with a
nonempty attached value ("-cVALUE" versus "--name=VALUE") agree for every
option that accepts a value. -/
theorem c9_short_long_equiv (resB : Int) (st : ParseState) (a0 : Token) (e : LongOpt)
    (he : e ∈ long_options) (v : Token) (c0 : Char) :
    (clParser resB st [a0, ['-', e.val]] =
      clParser resB st [a0, '-' :: '-' :: e.name])
  ∧ (clParser resB st [a0, ['-', e.val], v] =
      clParser resB st [a0, '-' :: '-' :: e.name, v])
  ∧ (e.has_arg ≠ Arity.no_argument →
      clParser resB st [a0, '-' :: e.val :: c0 :: v] =
        clParser resB st [a0, ('-' :: '-' :: e.name) ++ '=' :: c0 :: v]) := by
  simp only [long_options, List.mem_cons, List.not_mem_nil, or_false] at he
  rcases he with rfl | rfl | rfl | rfl | rfl | rfl | rfl | rfl | rfl | rfl | rfl | rfl | rfl |
      rfl | rfl | rfl <;>
    exact ⟨rfl, rfl, fun hn => by first | rfl | exact absurd rfl hn⟩

/-- Witness for C9 at the pid option: "-p 42" equals "--pid 42" and
"-p42" equals "--pid=42". -/
theorem c9_short_long_equiv_witness :
    (⟨ "pid".toList, Arity.required_argument, 'p'⟩ : LongOpt) ∈ long_options
  ∧ clParser 0 clDefault [ "vltrace".toList, "-p".toList, "42".toList] =
      clParser 0 clDefault [ "vltrace".toList, "--pid".toList, "42".toList]
  ∧ clParser 0 clDefault [ "vltrace".toList, "-p42".toList] =
      clParser 0 clDefault [ "vltrace".toList, "--pid=42".toList] :=
  ⟨by decide,
   (c9_short_long_equiv 0 clDefault ( "vltrace".toList)
      ⟨ "pid".toList, Arity.required_argument, 'p'⟩ (by decide) ( "42".toList) '4').2.1,
   (c9_short_long_equiv 0 clDefault ( "vltrace".toList)
      ⟨ "pid".toList, Arity.required_argument, 'p'⟩ (by decide) ( "2".toList) '4').2.2
     (by decide)⟩


/-- Boolean test that a character is a required-argument short option of
this optstring. -/
def requiredShort (c : Char) : Bool :=
  match findShort optbody c with
  | some Arity.required_argument => true
  | _ => false

/-- Goodness of a scanner event: a recognized required-argument option
always carries an attached value, and the scanner never produces the
option character ':'. -/
def goodEvB : Event → Bool
| Event.recognized c v => (!(requiredShort c) || v.isSome) && decide (c ≠ ':')
| Event.unknown _ => true

/-- Messages printed by a dispatch step. -/
def stepMsgs : StepOut → List Msg
| StepOut.cont _ => []
| StepOut.halt _ _ ms => ms

/-- Every event produced while scanning a short-option cluster is good. -/
theorem scanShort_good : ∀ (cs : List Char) (next : Option Token),
    ((scanShort cs next).1.all goodEvB) = true := by
  intro cs
  induction cs with
  | nil => intro next; rfl
  | cons c cs ih =>
    intro next
    by_cases hc : c = ':'
    · simp [scanShort, hc, ih, goodEvB]
    · rcases hf : findShort optbody c with _ | ar
      · simp [scanShort, hc, hf, ih, goodEvB]
      · rcases ar
        · simp [scanShort, hc, hf, ih, goodEvB, requiredShort]
        · rcases cs with _ | ⟨c2, cs2⟩
          · rcases next with _ | t
            · simp [scanShort, hc, hf, goodEvB, requiredShort]
            · simp [scanShort, hc, hf, goodEvB, requiredShort]
          · simp [scanShort, hc, hf, goodEvB, requiredShort]
        · rcases cs with _ | ⟨c2, cs2⟩
          · simp [scanShort, hc, hf, goodEvB, requiredShort]
          · simp [scanShort, hc, hf, goodEvB, requiredShort]

/-- Every entry of the long-option table has a matching short-option
arity in the optstring and a val that is not ':'. -/
theorem long_entries_consistent :
    long_options.all
      (fun e => (findShort optbody e.val == some e.has_arg) && decide (e.val ≠ ':')) = true := by
  decide

/-- A found long option is an entry of the table. -/
theorem findLong_mem (name : Token) (e : LongOpt) (h : findLong name = LFind.found e) :
    e ∈ long_options := by
  unfold findLong at h
  rcases hx : long_options.filter (fun x => x.name == name) with _ | ⟨e1, rest⟩
  · rw [hx] at h
    rcases hy : long_options.filter (fun x => tokLe name x.name) with _ | ⟨e2, rest2⟩
    · rw [hy] at h
      exact (LFind.noConfusion h)
    · rcases rest2 with _ | ⟨e3, rest3⟩
      · rw [hy] at h
        injection h with h2
        subst h2
        have he2 : e2 ∈ long_options.filter (fun x => tokLe name x.name) := by
          rw [hy]
          exact List.mem_cons_self e2 []
        exact List.mem_of_mem_filter he2
      · rw [hy] at h
        exact (LFind.noConfusion h)
  · rw [hx] at h
    injection h with h2
    subst h2
    have he1 : e1 ∈ long_options.filter (fun x => x.name == name) := by
      rw [hx]
      exact List.mem_cons_self e1 rest
    exact List.mem_of_mem_filter he1

/-- Every event produced while scanning a long option is good. -/
theorem scanLong_good (body : Token) (next : Option Token) :
    ((scanLong body next).1.all goodEvB) = true := by
  rcases hf : findLong (splitEq body).1 with e | _ | _
  · have hm := findLong_mem _ e hf
    have hcons := List.all_eq_true.mp long_entries_consistent e hm
    rw [Bool.and_eq_true, beq_iff_eq] at hcons
    obtain ⟨hc1, hc2⟩ := hcons
    have hval : e.val ≠ ':' := of_decide_eq_true hc2
    rcases ha : e.has_arg with _ | _ | _ <;>
      rcases hs : (splitEq body).2 with _ | v0 <;>
        rcases next with _ | t <;>
          simp [scanLong, hf, ha, hs, goodEvB, requiredShort, hc1, hval]
  · simp [scanLong, hf, goodEvB]
  · simp [scanLong, hf, goodEvB]

/-- Every event produced by the scanner loop is good. -/
theorem scanF_good : ∀ (fuel idx : Nat) (l : List Token),
    ((scanF fuel idx l).1.all goodEvB) = true := by
  intro fuel
  induction fuel with
  | zero => intro idx l; rfl
  | succ fuel ih =>
    intro idx l
    rcases l with _ | ⟨tok, rest⟩
    · rfl
    · rcases htc : tokClass tok with _ | body | cs | _
      · simp [scanF, htc]
      · by_cases hr : (scanLong body rest.head?).2 = true <;>
          simp [scanF, htc, hr, List.all_append, scanLong_good, ih]
      · by_cases hr : (scanShort cs rest.head?).2 = true <;>
          simp [scanF, htc, hr, List.all_append, scanShort_good, ih]
      · simp [scanF, htc]


/-- Dispatching a good event never prints the "missing mandatory
option's argument" message: the check_optarg failure branch and the ':'
case of the switch are unreachable from the scanner. -/
theorem dispatch_no_missing (resB : Int) (st : ParseState) (ev : Event)
    (hg : goodEvB ev = true) :
    ((stepMsgs (dispatch resB st ev)).all
      (fun m => decide (m ≠ Msg.errMissingArgMsg))) = true := by
  rcases ev with ⟨c, v⟩ | g
  · by_cases h1 : c = 'r'
    case pos => subst h1; rfl
    by_cases h2 : c = 't'
    case pos => subst h2; rfl
    by_cases h3 : c = 'X'
    case pos => subst h3; rfl
    by_cases h4 : c = 'h'
    case pos => subst h4; rfl
    by_cases h5 : c = 'd'
    case pos => subst h5; rfl
    by_cases h6 : c = 'p'
    case pos =>
      subst h6
      rcases v with _ | a
      · exact Bool.noConfusion hg
      · have hred : dispatch resB st (Event.recognized 'p' (some a)) =
            (if atoi a < 1 then
              StepOut.halt 1 { st with clo := { st.clo with pid := atoi a } }
                [Msg.errWrongPid a (atoi a)]
            else StepOut.cont { st with clo := { st.clo with pid := atoi a } }) := rfl
        rw [hred]
        by_cases hp : atoi a < 1
        · rw [if_pos hp]
          rfl
        · rw [if_neg hp]
          rfl
    by_cases h7 : c = 'o'
    case pos =>
      subst h7
      rcases v with _ | a
      · exact Bool.noConfusion hg
      · rfl
    by_cases h8 : c = 'K'
    case pos =>
      subst h8
      rcases v with _ | a
      · exact Bool.noConfusion hg
      · rfl
    by_cases h9 : c = 'N'
    case pos =>
      subst h9
      rcases v with _ | a
      · exact Bool.noConfusion hg
      · rfl
    by_cases h10 : c = 'e'
    case pos =>
      subst h10
      rcases v with _ | a
      · exact Bool.noConfusion hg
      · have hred : dispatch resB st (Event.recognized 'e' (some a)) =
            (if caseeq a ( "list".toList) || caseeq a ( "help".toList) then
              StepOut.halt 0 st [Msg.infoExprList]
            else if caseeq a ( "trace=help".toList) || caseeq a ( "trace=list".toList) then
              StepOut.halt 0 st [Msg.traceList]
            else StepOut.cont { st with clo := { st.clo with expr := some a } }) := rfl
        rw [hred]
        by_cases hq : (caseeq a ( "list".toList) || caseeq a ( "help".toList)) = true
        · rw [if_pos hq]
          rfl
        · rw [if_neg hq]
          by_cases hq2 : (caseeq a ( "trace=help".toList) || caseeq a ( "trace=list".toList)) = true
          · rw [if_pos hq2]
            rfl
          · rw [if_neg hq2]
            rfl
    by_cases h11 : c = 'l'
    case pos =>
      subst h11
      rcases v with _ | a
      · exact Bool.noConfusion hg
      · have hred : dispatch resB st (Event.recognized 'l' (some a)) =
            (if caseeq a ( "list".toList) || caseeq a ( "help".toList) then
              StepOut.halt 0 st [Msg.infoFormatList]
            else StepOut.cont { st with clo := { st.clo with out_fmt_str := some a },
                                        out_lf_fmt_arg := some a }) := rfl
        rw [hred]
        by_cases hq : (caseeq a ( "list".toList) || caseeq a ( "help".toList)) = true
        · rw [if_pos hq]
          rfl
        · rw [if_neg hq]
          rfl
    by_cases h12 : c = 's'
    case pos =>
      subst h12
      rcases v with _ | a
      · exact Bool.noConfusion hg
      · rfl
    by_cases h13 : c = 'L'
    case pos => subst h13; rfl
    by_cases h14 : c = 'R'
    case pos => subst h14; rfl
    by_cases h15 : c = 'B'
    case pos => subst h15; rfl
    by_cases h16 : c = 'f'
    case pos =>
      subst h16
      rcases v with _ | a
      · rfl
      · rfl
    by_cases h17 : c = ':'
    case pos => subst h17; exact Bool.noConfusion hg
    simp only [dispatch]
    rw [if_neg h1, if_neg h2, if_neg h3, if_neg h4, if_neg h5, if_neg h6, if_neg h7,
        if_neg h8, if_neg h9, if_neg h10, if_neg h11, if_neg h12, if_neg h13, if_neg h14,
        if_neg h15, if_neg h16, if_neg h17]
    rfl
  · rfl

/-- Running the event loop over good events never prints the missing
mandatory argument message. -/
theorem runEvents_no_missing (resB : Int) (argc : Nat) :
    ∀ (evs : List Event) (st : ParseState) (optind : Nat),
      evs.all goodEvB = true →
      ((msgsOf (runEvents resB argc st optind evs)).all
        (fun m => decide (m ≠ Msg.errMissingArgMsg))) = true := by
  intro evs
  induction evs with
  | nil =>
    intro st optind h
    unfold runEvents
    by_cases hc : optind < argc
    · rw [if_pos hc]
      rfl
    · rw [if_neg hc]
      rfl
  | cons ev evs ih =>
    intro st optind h
    rw [List.all_cons, Bool.and_eq_true] at h
    obtain ⟨hgd, h2⟩ := h
    unfold runEvents
    rcases hd : dispatch resB st ev with st3 | ⟨s, st3, ms⟩
    · exact ih st3 optind h2
    · have hstep := dispatch_no_missing resB st ev hgd
      rw [hd] at hstep
      exact hstep

/-- Claim C10: for every required-argument option recognized by the
scanner, the attached value handed to the dispatcher is non-null (and
the scanner never returns ':'), so the check_optarg failure branch and
the dispatcher's ':' missing-argument case are unreachable: with an
optstring that does not begin with ':', getopt_long reports a missing
required argument as '?' itself.  Consequently no run of cl_parser ever
prints the "missing mandatory option's argument" message. -/
theorem c10_required_value_always_present (resB : Int) (st : ParseState)
    (argv : List Token) (idx : Nat) (l : List Token) :
    ((scan idx l).1.all goodEvB = true)
  ∧ ((msgsOf (clParser resB st argv)).all
      (fun m => decide (m ≠ Msg.errMissingArgMsg)) = true) := by
  constructor
  · exact scanF_good l.length idx l
  · exact runEvents_no_missing resB argv.length (scan 1 (argv.drop 1)).1 st
      (scan 1 (argv.drop 1)).2 (scanF_good (argv.drop 1).length 1 (argv.drop 1))

end VltraceCl
